import Mathlib

/-!
Verification of the fractional real-estate ownership ledger
(`real_estate_fractional_v2_backend/src/lib.rs`).

The canister state is a collection of `HashMap`s held in thread-local
`RefCell`s; we embed it as a record of association lists (key uniqueness is
what `HashMap` guarantees; where a theorem needs it we carry it as a
hypothesis).  `Principal` values are embedded as natural numbers,
`u64` quantities as `Nat`.  Each exposed operation becomes a pure function
`... → State → Result × State` translated clause by clause from the source.
-/

namespace RWA


inductive Role where
  | Admin
  | Manager
  | User
deriving DecidableEq, Repr

structure PropertyMetadata where
  location : String
  description : String
deriving DecidableEq, Repr

inductive PropertyStatus where
  | Active
  | Maintenance
  | Sold
deriving DecidableEq, Repr

structure Property where
  id : Nat
  name : String
  total_shares : Nat
  shares_available : Nat
  metadata : PropertyMetadata
  status : PropertyStatus
deriving DecidableEq, Repr

structure Listing where
  property_id : Nat
  seller : Nat
  amount : Nat
  price_per_share : Nat
deriving DecidableEq, Repr

inductive ProposalStatus where
  | Open
  | Approved
  | Rejected
  | Executed
deriving DecidableEq, Repr

structure Proposal where
  id : Nat
  property_id : Nat
  proposer : Nat
  description : String
  status : ProposalStatus
  yes_votes : Nat
  no_votes : Nat
  votes : List (Nat × Bool)
deriving DecidableEq, Repr

structure OwnershipRecord where
  property_id : Nat
  property_name : String
  shares : Nat
deriving DecidableEq, Repr

structure RentalIncomeRecord where
  property_id : Nat
  property_name : String
  income : Nat
deriving DecidableEq, Repr

/-- `Result<String, String>`. -/
inductive RsResult where
  | ok (msg : String)
  | err (msg : String)
deriving DecidableEq, Repr

/-! ### Association-list primitives mirroring the `HashMap` operations used -/

/-- `map.get(&k).cloned()`. -/
def lookupA {κ α : Type} [DecidableEq κ] (k : κ) : List (κ × α) → Option α
  | [] => none
  | (k₀, v) :: rest => if k₀ = k then some v else lookupA k rest

/-- `map.get(&k).cloned().unwrap_or(0)`. -/
def lookupD {κ : Type} [DecidableEq κ] (k : κ) (l : List (κ × Nat)) : Nat :=
  (lookupA k l).getD 0

/-- `map.insert(k, v)` (replace in place, else append). -/
def insertA {κ α : Type} [DecidableEq κ] (k : κ) (v : α) : List (κ × α) → List (κ × α)
  | [] => [(k, v)]
  | (k₀, v₀) :: rest => if k₀ = k then (k, v) :: rest else (k₀, v₀) :: insertA k v rest

/-- `map.remove(&k)`, state part. -/
def removeA {κ α : Type} [DecidableEq κ] (k : κ) : List (κ × α) → List (κ × α)
  | [] => []
  | (k₀, v₀) :: rest => if k₀ = k then rest else (k₀, v₀) :: removeA k rest

/-- `*map.entry(k).or_insert(0) = g(previous)`; the common shape of
`*map.entry(k).or_insert(0) += n` (`g = (· + n)`),
`*map.entry(k).or_insert(0) -= n` (`g = (· - n)`), and of the bare
`map.entry(k).or_insert(0)` handle creation (`g = id`). -/
def updateWith {κ : Type} [DecidableEq κ] (g : Nat → Nat) (k : κ) :
    List (κ × Nat) → List (κ × Nat)
  | [] => [(k, g 0)]
  | (k₀, v) :: rest => if k₀ = k then (k₀, g v) :: rest else (k₀, v) :: updateWith g k rest

/-! ### The canister state -/

/-- The thread-local state of the canister (`ADMINS` is declared in the
source but never read or written afterwards; it is carried for fidelity). -/
structure State where
  properties : List (Nat × Property)
  ownership : List ((Nat × Nat) × Nat)
  nextPropertyId : Nat
  rentalIncome : List (Nat × Nat)
  unclaimedIncome : List ((Nat × Nat) × Nat)
  marketplace : List Listing
  admins : List Nat
  roles : List (Nat × Role)
  kyc : List (Nat × Bool)
  bootstrapped : Bool
  proposals : List (Nat × Proposal)
  nextProposalId : Nat
deriving DecidableEq, Repr

/-- `Principal::anonymous()`. -/
def anonymousPrincipal : Nat := 0

def initState : State :=
  { properties := []
    ownership := []
    nextPropertyId := 1
    rentalIncome := []
    unclaimedIncome := []
    marketplace := []
    admins := [anonymousPrincipal]
    roles := []
    kyc := []
    bootstrapped := false
    proposals := []
    nextProposalId := 1 }

/-! ### Operations, translated from the source -/

def get_role (principal : Nat) (s : State) : Role :=
  (lookupA principal s.roles).getD Role.User

def is_kyc_verified (principal : Nat) (s : State) : Bool :=
  (lookupA principal s.kyc).getD false

def set_kyc_status (callerP user : Nat) (flag : Bool) (s : State) :
    RsResult × State :=
  if get_role callerP s ≠ Role.Admin then
    (.err "Only admin can set KYC status", s)
  else
    (.ok "KYC status updated", { s with kyc := insertA user flag s.kyc })

def set_role (callerP user : Nat) (role : Role) (s : State) : RsResult × State :=
  if get_role callerP s ≠ Role.Admin then
    (.err "Only admin can set roles", s)
  else
    (.ok "Role updated", { s with roles := insertA user role s.roles })

def bootstrap_admin (admin : Nat) (s : State) : RsResult × State :=
  if s.bootstrapped then
    (.err "Admin already bootstrapped", s)
  else
    (.ok "Admin bootstrapped",
      { s with roles := insertA admin Role.Admin s.roles, bootstrapped := true })

def get_my_role (callerP : Nat) (s : State) : Role :=
  get_role callerP s

def is_my_kyc_verified (callerP : Nat) (s : State) : Bool :=
  is_kyc_verified callerP s

def update_property_metadata (property_id : Nat) (metadata : PropertyMetadata)
    (callerP : Nat) (s : State) : RsResult × State :=
  if get_role callerP s ≠ Role.Admin then
    (.err "Only admin can update property metadata", s)
  else
    match lookupA property_id s.properties with
    | some prop =>
        (.ok "Property metadata updated",
          { s with properties :=
              (insertA property_id { prop with metadata := metadata } s.properties) })
    | none => (.err "Property not found", s)

def update_property_status (property_id : Nat) (stat : PropertyStatus)
    (callerP : Nat) (s : State) : RsResult × State :=
  if get_role callerP s ≠ Role.Admin then
    (.err "Only admin can update property status", s)
  else
    match lookupA property_id s.properties with
    | some prop =>
        (.ok "Property status updated",
          { s with properties :=
              insertA property_id { prop with status := stat } s.properties })
    | none => (.err "Property not found", s)

def register_property (name : String) (total_shares : Nat) (metadata : PropertyMetadata)
    (s : State) : Property × State :=
  let id := s.nextPropertyId
  let property : Property :=
    { id := id
      name := name
      total_shares := total_shares
      shares_available := total_shares
      metadata := metadata
      status := PropertyStatus.Active }
  (property,
    { s with properties := insertA id property s.properties, nextPropertyId := id + 1 })

def issue_shares (property_id : Nat) (toU : Nat) (amount : Nat)
    (s : State) : RsResult × State :=
  match lookupA property_id s.properties with
  | some prop =>
      if amount ≤ prop.shares_available then
        (.ok "Shares issued",
          { s with
              properties :=
                (insertA property_id
                  { prop with shares_available := prop.shares_available - amount }
                  s.properties)
              ownership := updateWith (· + amount) (property_id, toU) s.ownership })
      else
        (.err "Not enough shares or property not found", s)
  | none => (.err "Not enough shares or property not found", s)

def get_property (property_id : Nat) (s : State) : Option Property :=
  lookupA property_id s.properties

def get_ownership (property_id : Nat) (user : Nat) (s : State) : Nat :=
  lookupD (property_id, user) s.ownership

def deposit_rental_income (property_id : Nat) (amount : Nat) (s : State) :
    RsResult × State :=
  let s₁ := { s with rentalIncome := updateWith (· + amount) property_id s.rentalIncome }
  let total_shares :=
    match lookupA property_id s₁.properties with
    | some prop => prop.total_shares
    | none => 0
  if total_shares = 0 then
    (.err "Property not found or has no shares", s₁)
  else
    (.ok "Rental income distributed",
      { s₁ with unclaimedIncome :=
          (s₁.ownership.foldl
            (fun ui e =>
              if e.1.1 = property_id ∧ 0 < e.2 then
                updateWith (· + amount * e.2 / total_shares) (property_id, e.1.2) ui
              else ui)
            s₁.unclaimedIncome) })

def claim_income (property_id : Nat) (user : Nat) (s : State) :
    Nat × State :=
  (lookupD (property_id, user) s.unclaimedIncome,
    { s with unclaimedIncome := removeA (property_id, user) s.unclaimedIncome })

def get_unclaimed_income (property_id : Nat) (user : Nat) (s : State) : Nat :=
  lookupD (property_id, user) s.unclaimedIncome

def list_shares_for_sale (property_id : Nat) (seller : Nat)
    (amount price_per_share : Nat) (s : State) : RsResult × State :=
  let owned := lookupD (property_id, seller) s.ownership
  if owned < amount then
    (.err "Not enough shares to list", s)
  else
    (.ok "Shares listed for sale",
      { s with marketplace :=
          (s.marketplace ++
            [{ property_id := property_id, seller := seller, amount := amount,
               price_per_share := price_per_share }]) })

/-- `mp.iter().position(|l| ...)` together with the listing found there. -/
def findListing (property_id : Nat) (seller : Nat) (amount : Nat) :
    List Listing → Option (Nat × Listing)
  | [] => none
  | l :: rest =>
      if l.property_id = property_id ∧ l.seller = seller ∧ amount ≤ l.amount then
        some (0, l)
      else
        (findListing property_id seller amount rest).map (fun r => (r.1 + 1, r.2))

/-- `buy_shares` from the source.  Note the faithful rendering of the inner
closure: when the seller's live balance is below `amount` the early `return`
leaves the balances untouched (apart from the `or_insert(0)` entry), but the
surrounding code still shrinks or removes the listing and reports success. -/
def buy_shares (property_id : Nat) (seller buyer : Nat) (amount : Nat)
    (s : State) : RsResult × State :=
  match findListing property_id seller amount s.marketplace with
  | none => (.err "Listing not found or insufficient shares", s)
  | some (pos, l) =>
      let seller_shares := lookupD (property_id, seller) s.ownership
      let own₁ := updateWith id (property_id, seller) s.ownership
      let own₂ :=
        if seller_shares < amount then own₁
        else
          updateWith (· + amount) (property_id, buyer)
            (updateWith (· - amount) (property_id, seller) own₁)
      let mp₂ :=
        if l.amount = amount then s.marketplace.eraseIdx pos
        else s.marketplace.set pos { l with amount := l.amount - amount }
      (.ok "Shares bought successfully", { s with ownership := own₂, marketplace := mp₂ })

def transfer_shares (property_id : Nat) (fromU toU : Nat) (amount : Nat)
    (s : State) : RsResult × State :=
  let from_shares := lookupD (property_id, fromU) s.ownership
  let own₁ := updateWith id (property_id, fromU) s.ownership
  if from_shares < amount then
    (.err "Not enough shares to transfer", { s with ownership := own₁ })
  else
    (.ok "Shares transferred",
      { s with ownership :=
          (updateWith (· + amount) (property_id, toU)
            (updateWith (· - amount) (property_id, fromU) own₁)) })

def get_marketplace_listings (s : State) : List Listing :=
  s.marketplace

def submit_proposal (callerP : Nat) (property_id : Nat)
    (description : String) (s : State) : Proposal × State :=
  let id := s.nextProposalId
  let proposal : Proposal :=
    { id := id
      property_id := property_id
      proposer := callerP
      description := description
      status := ProposalStatus.Open
      yes_votes := 0
      no_votes := 0
      votes := [] }
  (proposal,
    { s with proposals := insertA id proposal s.proposals, nextProposalId := id + 1 })

def vote_on_proposal (callerP : Nat) (proposal_id : Nat) (vote : Bool)
    (s : State) : RsResult × State :=
  let failMsg := "Proposal not found, not open, already voted, or no shares"
  match lookupA proposal_id s.proposals with
  | none => (.err failMsg, s)
  | some prop =>
      if prop.status ≠ ProposalStatus.Open then (.err failMsg, s)
      else if (lookupA callerP prop.votes).isSome then (.err failMsg, s)
      else
        let shares := lookupD (prop.property_id, callerP) s.ownership
        if shares = 0 then (.err failMsg, s)
        else
          (.ok "Vote recorded",
            { s with proposals :=
                (insertA proposal_id
                  { prop with
                      votes := insertA callerP vote prop.votes
                      yes_votes := if vote then prop.yes_votes + shares else prop.yes_votes
                      no_votes := if vote then prop.no_votes else prop.no_votes + shares }
                  s.proposals) })

def execute_proposal (proposal_id : Nat) (s : State) : RsResult × State :=
  match lookupA proposal_id s.proposals with
  | none => (.err "Proposal not found or not open", s)
  | some prop =>
      if prop.status ≠ ProposalStatus.Open then
        (.err "Proposal not found or not open", s)
      else if prop.no_votes < prop.yes_votes then
        (.ok "Proposal approved and executed",
          { s with proposals :=
              (insertA proposal_id { prop with status := ProposalStatus.Executed }
                s.proposals) })
      else
        (.ok "Proposal rejected",
          { s with proposals :=
              (insertA proposal_id { prop with status := ProposalStatus.Rejected }
                s.proposals) })

def get_proposals (property_id : Nat) (s : State) : List Proposal :=
  (s.proposals.map Prod.snd).filter (fun p => p.property_id == property_id)

def propertyNameOf (pid : Nat) (s : State) : String :=
  match lookupA pid s.properties with
  | some p => p.name
  | none => ""

def get_ownership_statement (user : Nat) (s : State) : List OwnershipRecord :=
  (s.ownership.filter (fun e => e.1.2 == user && decide (0 < e.2))).map
    (fun e =>
      { property_id := e.1.1
        property_name := propertyNameOf e.1.1 s
        shares := e.2 })

def get_rental_income_statement (user : Nat) (s : State) :
    List RentalIncomeRecord :=
  (s.unclaimedIncome.filter (fun e => e.1.2 == user)).map
    (fun e =>
      { property_id := e.1.1
        property_name := propertyNameOf e.1.1 s
        income := e.2 })

/-! ### The exposed operations as a single step function -/

/-- One call to an exposed entry point of the canister (update or query);
caller identities obtained through `ic_cdk::api::caller()` in the source are
explicit arguments here, as the spec delegates identity extraction to the
RPC façade. -/
inductive Op where
  | opSetKyc (callerP user : Nat) (flag : Bool)
  | opSetRole (callerP user : Nat) (role : Role)
  | opBootstrap (admin : Nat)
  | opMyRole (callerP : Nat)
  | opMyKyc (callerP : Nat)
  | opUpdMetadata (property_id : Nat) (metadata : PropertyMetadata) (callerP : Nat)
  | opUpdStatus (property_id : Nat) (stat : PropertyStatus) (callerP : Nat)
  | opRegister (name : String) (total_shares : Nat) (metadata : PropertyMetadata)
  | opIssue (property_id : Nat) (toU : Nat) (amount : Nat)
  | opGetProperty (property_id : Nat)
  | opGetOwnership (property_id : Nat) (user : Nat)
  | opDeposit (property_id : Nat) (amount : Nat)
  | opClaim (property_id : Nat) (user : Nat)
  | opGetUnclaimed (property_id : Nat) (user : Nat)
  | opList (property_id : Nat) (seller : Nat) (amount price_per_share : Nat)
  | opBuy (property_id : Nat) (seller buyer : Nat) (amount : Nat)
  | opTransfer (property_id : Nat) (fromU toU : Nat) (amount : Nat)
  | opListings
  | opSubmit (callerP : Nat) (property_id : Nat) (description : String)
  | opVote (callerP : Nat) (proposal_id : Nat) (choice : Bool)
  | opExecute (proposal_id : Nat)
  | opGetProposals (property_id : Nat)
  | opOwnStatement (user : Nat)
  | opIncomeStatement (user : Nat)
deriving DecidableEq, Repr

/-- The value returned to the caller by one exposed operation. -/
inductive Answer where
  | res (r : RsResult)
  | roleAns (r : Role)
  | boolAns (b : Bool)
  | natAns (n : Nat)
  | propertyAns (p : Option Property)
  | newProperty (p : Property)
  | newProposal (p : Proposal)
  | listingsAns (l : List Listing)
  | proposalsAns (l : List Proposal)
  | ownAns (l : List OwnershipRecord)
  | incomeAns (l : List RentalIncomeRecord)
deriving DecidableEq, Repr

/-- Run one exposed operation: the caller-visible answer and the new state. -/
def applyOpFull (op : Op) (s : State) : Answer × State :=
  match op with
  | .opSetKyc c u f => let r := set_kyc_status c u f s; (.res r.1, r.2)
  | .opSetRole c u ro => let r := set_role c u ro s; (.res r.1, r.2)
  | .opBootstrap a => let r := bootstrap_admin a s; (.res r.1, r.2)
  | .opMyRole c => (.roleAns (get_my_role c s), s)
  | .opMyKyc c => (.boolAns (is_my_kyc_verified c s), s)
  | .opUpdMetadata p m c => let r := update_property_metadata p m c s; (.res r.1, r.2)
  | .opUpdStatus p st c => let r := update_property_status p st c s; (.res r.1, r.2)
  | .opRegister n t m => let r := register_property n t m s; (.newProperty r.1, r.2)
  | .opIssue p u a => let r := issue_shares p u a s; (.res r.1, r.2)
  | .opGetProperty p => (.propertyAns (get_property p s), s)
  | .opGetOwnership p u => (.natAns (get_ownership p u s), s)
  | .opDeposit p a => let r := deposit_rental_income p a s; (.res r.1, r.2)
  | .opClaim p u => let r := claim_income p u s; (.natAns r.1, r.2)
  | .opGetUnclaimed p u => (.natAns (get_unclaimed_income p u s), s)
  | .opList p se a pr => let r := list_shares_for_sale p se a pr s; (.res r.1, r.2)
  | .opBuy p se b a => let r := buy_shares p se b a s; (.res r.1, r.2)
  | .opTransfer p f t a => let r := transfer_shares p f t a s; (.res r.1, r.2)
  | .opListings => (.listingsAns (get_marketplace_listings s), s)
  | .opSubmit c p d => let r := submit_proposal c p d s; (.newProposal r.1, r.2)
  | .opVote c i ch => let r := vote_on_proposal c i ch s; (.res r.1, r.2)
  | .opExecute i => let r := execute_proposal i s; (.res r.1, r.2)
  | .opGetProposals p => (.proposalsAns (get_proposals p s), s)
  | .opOwnStatement u => (.ownAns (get_ownership_statement u s), s)
  | .opIncomeStatement u => (.incomeAns (get_rental_income_statement u s), s)

/-- State effect of one exposed operation. -/
def applyOp (op : Op) (s : State) : State :=
  (applyOpFull op s).2

/-- Run a sequence of exposed operations from a starting state. -/
def runOps (ops : List Op) (s : State) : State :=
  ops.foldl (fun s op => applyOp op s) s

/-! ### Lemmas about the association-list primitives -/

theorem lookupA_insertA {κ α : Type} [DecidableEq κ] (k k₀ : κ) (v : α)
    (l : List (κ × α)) :
    lookupA k (insertA k₀ v l) = if k₀ = k then some v else lookupA k l := by
  induction l with
  | nil => simp [insertA, lookupA]
  | cons e rest ih =>
      obtain ⟨ke, ve⟩ := e
      by_cases h1 : ke = k₀
      · subst h1
        by_cases h2 : ke = k
        · subst h2
          simp [insertA, lookupA]
        · simp [insertA, lookupA, h2]
      · by_cases h2 : ke = k
        · subst h2
          have h3 : ¬ k₀ = ke := fun h => h1 h.symm
          simp [insertA, lookupA, h1, h3]
        · simp [insertA, lookupA, h1, h2, ih]

theorem lookupA_updateWith {κ : Type} [DecidableEq κ] (g : Nat → Nat) (k k₀ : κ)
    (l : List (κ × Nat)) :
    lookupA k (updateWith g k₀ l) =
      if k₀ = k then some (g (lookupD k₀ l)) else lookupA k l := by
  induction l with
  | nil => simp [updateWith, lookupA, lookupD]
  | cons e rest ih =>
      obtain ⟨ke, ve⟩ := e
      by_cases h1 : ke = k₀
      · subst h1
        by_cases h2 : ke = k
        · subst h2
          simp [updateWith, lookupA, lookupD]
        · simp [updateWith, lookupA, lookupD, h2]
      · by_cases h2 : ke = k
        · subst h2
          have h3 : ¬ k₀ = ke := fun h => h1 h.symm
          simp [updateWith, lookupA, lookupD, h1, h3]
        · have h3 : lookupD k₀ ((ke, ve) :: rest) = lookupD k₀ rest := by
            simp [lookupD, lookupA, h1]
          simp [updateWith, lookupA, h1, h2, ih, h3]

theorem lookupD_updateWith {κ : Type} [DecidableEq κ] (g : Nat → Nat) (k k₀ : κ)
    (l : List (κ × Nat)) :
    lookupD k (updateWith g k₀ l) =
      if k₀ = k then g (lookupD k₀ l) else lookupD k l := by
  simp only [lookupD, lookupA_updateWith]
  split <;> simp

/-- Total shares held by all holders of property `p` (the conservation sum). -/
def sumBal (p : Nat) : List ((Nat × Nat) × Nat) → Nat
  | [] => 0
  | e :: rest => (if e.1.1 = p then e.2 else 0) + sumBal p rest

theorem sumBal_updateWith_add (p : Nat) (k : Nat × Nat) (n : Nat)
    (l : List ((Nat × Nat) × Nat)) :
    sumBal p (updateWith (· + n) k l) = sumBal p l + (if k.1 = p then n else 0) := by
  induction l with
  | nil => simp [updateWith, sumBal]
  | cons e rest ih =>
      obtain ⟨ke, ve⟩ := e
      by_cases h1 : ke = k
      · subst h1
        by_cases hp : ke.1 = p <;> simp [updateWith, sumBal, hp] <;> omega
      · by_cases hp : ke.1 = p <;> by_cases hk : k.1 = p <;>
          simp [updateWith, sumBal, h1, hp, hk, ih] <;> omega

theorem sumBal_updateWith_id (p : Nat) (k : Nat × Nat)
    (l : List ((Nat × Nat) × Nat)) :
    sumBal p (updateWith id k l) = sumBal p l := by
  induction l with
  | nil => simp [updateWith, sumBal]
  | cons e rest ih =>
      obtain ⟨ke, ve⟩ := e
      by_cases h1 : ke = k <;> simp [updateWith, sumBal, h1, ih]

theorem sumBal_updateWith_sub (p : Nat) (k : Nat × Nat) (n : Nat)
    (l : List ((Nat × Nat) × Nat)) (h : n ≤ lookupD k l) :
    sumBal p (updateWith (· - n) k l) + (if k.1 = p then n else 0) = sumBal p l := by
  induction l with
  | nil =>
      have hn : n = 0 := by simpa [lookupD, lookupA] using h
      subst hn
      by_cases hp : k.1 = p <;> simp [updateWith, sumBal, hp]
  | cons e rest ih =>
      obtain ⟨ke, ve⟩ := e
      by_cases h1 : ke = k
      · subst h1
        have hv : n ≤ ve := by simpa [lookupD, lookupA] using h
        by_cases hp : ke.1 = p <;> simp [updateWith, sumBal, hp] <;> omega
      · have h2 : n ≤ lookupD k rest := by
          simpa [lookupD, lookupA, h1] using h
        have h3 := ih h2
        by_cases hp : ke.1 = p <;> by_cases hk : k.1 = p <;>
          simp [updateWith, sumBal, h1, hp, hk] at h3 ⊢ <;> omega

theorem sumBal_pos_exists (p : Nat)
    (l : List ((Nat × Nat) × Nat)) (h : 0 < sumBal p l) :
    ∃ e ∈ l, e.1.1 = p ∧ 0 < e.2 := by
  induction l with
  | nil => simp [sumBal] at h
  | cons e rest ih =>
      by_cases h1 : e.1.1 = p
      · simp only [sumBal, h1, if_pos] at h
        rcases Nat.eq_zero_or_pos e.2 with he | he
        · rw [he] at h
          simp only [Nat.zero_add] at h
          obtain ⟨e₁, he₁, hp, hv⟩ := ih h
          exact ⟨e₁, List.mem_cons_of_mem _ he₁, hp, hv⟩
        · exact ⟨e, List.mem_cons_self _ _, h1, he⟩
      · simp only [sumBal, h1, if_neg, Nat.zero_add, not_false_iff] at h
        obtain ⟨e₁, he₁, hp, hv⟩ := ih h
        exact ⟨e₁, List.mem_cons_of_mem _ he₁, hp, hv⟩

/-! ### The conservation invariant (claim C1) -/

/-- Invariant carried through every exposed operation: registered properties
satisfy the conservation law and were allocated below the id counter, and any
positive holder balance refers to a registered property. -/
def Inv (s : State) : Prop :=
  (∀ k pr, lookupA k s.properties = some pr →
      pr.shares_available + sumBal k s.ownership = pr.total_shares ∧
      k < s.nextPropertyId) ∧
  (∀ p, 0 < sumBal p s.ownership → (lookupA p s.properties).isSome)

theorem Inv_initState : Inv initState := by
  constructor
  · intro k pr h
    simp [initState, lookupA] at h
  · intro p h
    simp [initState, sumBal] at h

theorem isSome_insertA {κ α : Type} [DecidableEq κ] (k k₀ : κ) (v : α)
    (l : List (κ × α)) (h : (lookupA k l).isSome) :
    (lookupA k (insertA k₀ v l)).isSome := by
  rw [lookupA_insertA]
  split <;> simp [h]

/-- The invariant only looks at `properties`, `nextPropertyId` and the
per-property balance sums, so it transports along operations that keep
those observations. -/
theorem Inv_congr (s s' : State) (hp : s'.properties = s.properties)
    (hn : s'.nextPropertyId = s.nextPropertyId)
    (ho : ∀ q, sumBal q s'.ownership = sumBal q s.ownership) (h : Inv s) : Inv s' := by
  obtain ⟨h1, h2⟩ := h
  constructor
  · intro k pr hk
    rw [hp] at hk
    rw [hn, ho]
    exact h1 k pr hk
  · intro q hq
    rw [ho] at hq
    rw [hp]
    exact h2 q hq

/-- Net effect on the balance sums of the debit-and-credit chain shared by
`transfer_shares` and the successful branch of `buy_shares`. -/
theorem sumBal_transfer_chain (q p : Nat) (fr toU : Nat) (a : Nat)
    (own : List ((Nat × Nat) × Nat)) (h : a ≤ lookupD (p, fr) own) :
    sumBal q (updateWith (· + a) (p, toU)
      (updateWith (· - a) (p, fr) (updateWith id (p, fr) own))) = sumBal q own := by
  have h1 : a ≤ lookupD (p, fr) (updateWith id (p, fr) own) := by
    rw [lookupD_updateWith]
    simpa using h
  have h2 := sumBal_updateWith_sub q (p, fr) a (updateWith id (p, fr) own) h1
  rw [sumBal_updateWith_id] at h2
  rw [sumBal_updateWith_add]
  by_cases hpq : p = q <;> simp [hpq] at h2 ⊢ <;> omega

theorem Inv_register (n : String) (t : Nat) (m : PropertyMetadata) (s : State)
    (h : Inv s) : Inv (register_property n t m s).2 := by
  obtain ⟨h1, h2⟩ := h
  have hfresh : sumBal s.nextPropertyId s.ownership = 0 := by
    rcases Nat.eq_zero_or_pos (sumBal s.nextPropertyId s.ownership) with hz | hz
    · exact hz
    · exfalso
      have hs := h2 _ hz
      obtain ⟨pr, hpr⟩ := Option.isSome_iff_exists.mp hs
      exact absurd (h1 _ pr hpr).2 (lt_irrefl _)
  constructor
  · intro k pr hk
    simp only [register_property] at hk ⊢

    rw [lookupA_insertA] at hk
    by_cases hkn : s.nextPropertyId = k
    · rw [if_pos hkn] at hk
      cases hk
      subst hkn
      simp [hfresh]
    · rw [if_neg hkn] at hk
      obtain ⟨hc, hlt⟩ := h1 k pr hk
      refine ⟨hc, ?_⟩
      omega
  · intro q hq
    simp only [register_property] at hq ⊢

    exact isSome_insertA _ _ _ _ (h2 q hq)

theorem Inv_issue (p : Nat) (u : Nat) (a : Nat) (s : State)
    (h : Inv s) : Inv (issue_shares p u a s).2 := by
  obtain ⟨h1, h2⟩ := h
  unfold issue_shares
  cases hl : lookupA p s.properties with
  | none => exact ⟨h1, h2⟩
  | some prop =>
      dsimp only
      by_cases ha : a ≤ prop.shares_available
      · rw [if_pos ha]
        constructor
        · intro k pr hk
          dsimp only at hk ⊢
          rw [lookupA_insertA] at hk
          rw [sumBal_updateWith_add]
          by_cases hpk : p = k
          · rw [if_pos hpk] at hk
            cases hk
            subst hpk
            obtain ⟨hc, hlt⟩ := h1 p prop hl
            refine ⟨?_, hlt⟩
            simp only [Prod.fst]
            simp
            omega
          · rw [if_neg hpk] at hk
            obtain ⟨hc, hlt⟩ := h1 k pr hk
            refine ⟨?_, hlt⟩
            simp [hpk]
            omega
        · intro q hq
          dsimp only at hq ⊢
          rw [sumBal_updateWith_add] at hq
          by_cases hpq : p = q
          · subst hpq
            apply isSome_insertA
            simp [hl]
          · simp [hpq] at hq
            exact isSome_insertA _ _ _ _ (h2 q hq)
      · rw [if_neg ha]
        exact ⟨h1, h2⟩

theorem Inv_transfer (p : Nat) (fr toU : Nat) (a : Nat) (s : State)
    (h : Inv s) : Inv (transfer_shares p fr toU a s).2 := by
  unfold transfer_shares
  by_cases hlt : lookupD (p, fr) s.ownership < a
  · rw [if_pos hlt]
    exact Inv_congr s _ rfl rfl (fun q => sumBal_updateWith_id q _ _) h
  · rw [if_neg hlt]
    exact Inv_congr s _ rfl rfl
      (fun q => sumBal_transfer_chain q p fr toU a s.ownership (by omega)) h

theorem Inv_buy (p : Nat) (seller buyer : Nat) (a : Nat) (s : State)
    (h : Inv s) : Inv (buy_shares p seller buyer a s).2 := by
  unfold buy_shares
  cases hf : findListing p seller a s.marketplace with
  | none => exact h
  | some posl =>
      obtain ⟨pos, l⟩ := posl
      simp only
      by_cases hlt : lookupD (p, seller) s.ownership < a
      · rw [if_pos hlt]
        exact Inv_congr s _ rfl rfl (fun q => sumBal_updateWith_id q _ _) h
      · rw [if_neg hlt]
        exact Inv_congr s _ rfl rfl
          (fun q => sumBal_transfer_chain q p seller buyer a s.ownership (by omega)) h

theorem Inv_updMeta (p : Nat) (m : PropertyMetadata) (c : Nat) (s : State)
    (h : Inv s) : Inv (update_property_metadata p m c s).2 := by
  obtain ⟨h1, h2⟩ := h
  unfold update_property_metadata
  by_cases hr : get_role c s ≠ Role.Admin
  · rw [if_pos hr]
    exact ⟨h1, h2⟩
  · rw [if_neg hr]
    cases hl : lookupA p s.properties with
    | none => exact ⟨h1, h2⟩
    | some prop =>
        constructor
        · intro k pr hk
          simp only at hk ⊢
          rw [lookupA_insertA] at hk
          by_cases hpk : p = k
          · rw [if_pos hpk] at hk
            cases hk
            subst hpk
            exact h1 p prop hl
          · rw [if_neg hpk] at hk
            exact h1 k pr hk
        · intro q hq
          exact isSome_insertA _ _ _ _ (h2 q hq)

theorem Inv_updStatus (p : Nat) (st : PropertyStatus) (c : Nat) (s : State)
    (h : Inv s) : Inv (update_property_status p st c s).2 := by
  obtain ⟨h1, h2⟩ := h
  unfold update_property_status
  by_cases hr : get_role c s ≠ Role.Admin
  · rw [if_pos hr]
    exact ⟨h1, h2⟩
  · rw [if_neg hr]
    cases hl : lookupA p s.properties with
    | none => exact ⟨h1, h2⟩
    | some prop =>
        constructor
        · intro k pr hk
          simp only at hk ⊢
          rw [lookupA_insertA] at hk
          by_cases hpk : p = k
          · rw [if_pos hpk] at hk
            cases hk
            subst hpk
            exact h1 p prop hl
          · rw [if_neg hpk] at hk
            exact h1 k pr hk
        · intro q hq
          exact isSome_insertA _ _ _ _ (h2 q hq)

theorem Inv_applyOp (op : Op) (s : State) (h : Inv s) : Inv (applyOp op s) := by
  cases op
  case opRegister n t m => exact Inv_register n t m s h
  case opIssue p u a => exact Inv_issue p u a s h
  case opTransfer p f t a => exact Inv_transfer p f t a s h
  case opBuy p se b a => exact Inv_buy p se b a s h
  case opUpdMetadata p m c => exact Inv_updMeta p m c s h
  case opUpdStatus p st c => exact Inv_updStatus p st c s h
  all_goals
    refine Inv_congr s _ ?_ ?_ (fun q => ?_) h <;>
      · simp only [applyOp, applyOpFull, set_kyc_status, set_role, bootstrap_admin,
          deposit_rental_income, claim_income, list_shares_for_sale, submit_proposal,
          vote_on_proposal, execute_proposal]
        repeat' split
        all_goals rfl

theorem Inv_runOps (ops : List Op) (s : State) (h : Inv s) : Inv (runOps ops s) := by
  induction ops generalizing s with
  | nil => exact h
  | cons op rest ih => exact ih _ (Inv_applyOp op s h)

/-- C1: For every property in every state reachable from the initial canister
state by any sequence of exposed operations, `shares_available` plus the sum
of all holder balances for that property equals `total_shares`. -/
theorem conservation_all_reachable (ops : List Op) (k : Nat) (pr : Property)
    (h : lookupA k (runOps ops initState).properties = some pr) :
    pr.shares_available + sumBal k (runOps ops initState).ownership = pr.total_shares :=
  ((Inv_runOps ops initState Inv_initState).1 k pr h).1

/-- Operation sequence exercising registration, issuance, a direct transfer
and a marketplace sale, used to instantiate the conservation theorem. -/
def consOps : List Op :=
  [Op.opRegister "House" 100 { location := "L", description := "D" },
   Op.opIssue 1 1 60,
   Op.opTransfer 1 1 2 10,
   Op.opList 1 1 20 5,
   Op.opBuy 1 1 3 20]

def consProp : Property :=
  { id := 1
    name := "House"
    total_shares := 100
    shares_available := 40
    metadata := { location := "L", description := "D" }
    status := PropertyStatus.Active }

theorem conservation_all_reachable_witness :
    lookupA 1 (runOps consOps initState).properties = some consProp ∧
    consProp.shares_available + sumBal 1 (runOps consOps initState).ownership =
      consProp.total_shares :=
  ⟨rfl, conservation_all_reachable consOps 1 consProp rfl⟩

/-- C6: A self-transfer within a holder's balance succeeds and leaves every
ownership balance (read through `get_ownership`) unchanged. -/
theorem transfer_self_noop (p x amount : Nat) (s : State)
    (h : amount ≤ get_ownership p x s) :
    (transfer_shares p x x amount s).1 = RsResult.ok "Shares transferred" ∧
    ∀ q u, get_ownership q u (transfer_shares p x x amount s).2 = get_ownership q u s := by
  have hnlt : ¬ lookupD (p, x) s.ownership < amount := by
    simp only [get_ownership] at h
    omega
  unfold transfer_shares
  rw [if_neg hnlt]
  refine ⟨rfl, fun q u => ?_⟩
  simp only [get_ownership]
  by_cases hk : ((p, x) : Nat × Nat) = (q, u)
  · rw [lookupD_updateWith, if_pos hk, lookupD_updateWith, if_pos rfl,
      lookupD_updateWith, if_pos rfl]
    simp only [get_ownership] at h
    rw [← hk]
    simp only [id_eq]
    omega
  · rw [lookupD_updateWith, if_neg hk, lookupD_updateWith, if_neg hk,
      lookupD_updateWith, if_neg hk]

def selfWitState : State := { initState with ownership := [((1, 1), 60)] }

theorem transfer_self_noop_witness :
    30 ≤ get_ownership 1 1 selfWitState ∧
    (transfer_shares 1 1 1 30 selfWitState).1 = RsResult.ok "Shares transferred" ∧
    get_ownership 1 1 (transfer_shares 1 1 1 30 selfWitState).2 =
      get_ownership 1 1 selfWitState :=
  ⟨by decide,
   (transfer_self_noop 1 1 30 selfWitState (by decide)).1,
   (transfer_self_noop 1 1 30 selfWitState (by decide)).2 1 1⟩

/-- The precondition under which `vote_on_proposal` records a vote: the
proposal exists and is `Open`, the voter has not voted on it yet, and the
voter holds a positive balance for the proposal's property. -/
def Votable (callerP proposal_id : Nat) (s : State) : Prop :=
  match lookupA proposal_id s.proposals with
  | none => False
  | some pr =>
      pr.status = ProposalStatus.Open ∧ lookupA callerP pr.votes = none ∧
        0 < lookupD (pr.property_id, callerP) s.ownership

/-- C7: `vote_on_proposal` succeeds exactly when the proposal exists, is
`Open`, the voter has not voted yet, and the voter's balance for the
proposal's property is positive; in every other case it returns the single
`NotVotable` error and the whole state — the proposal included — is
unchanged. -/
theorem vote_succeeds_iff (c i : Nat) (ch : Bool) (s : State) :
    ((vote_on_proposal c i ch s).1 = RsResult.ok "Vote recorded" ↔ Votable c i s) ∧
    (¬ Votable c i s →
      (vote_on_proposal c i ch s).1 =
        RsResult.err "Proposal not found, not open, already voted, or no shares" ∧
      (vote_on_proposal c i ch s).2 = s) := by
  unfold vote_on_proposal Votable
  cases hl : lookupA i s.proposals with
  | none =>
      dsimp only
      exact ⟨by simp, fun _ => ⟨rfl, rfl⟩⟩
  | some pr =>
      dsimp only
      by_cases hst : pr.status = ProposalStatus.Open
      · rw [if_neg (by simp [hst])]
        cases hv : lookupA c pr.votes with
        | some b =>
            rw [if_pos (by simp)]
            exact ⟨by simp [hst], fun _ => ⟨rfl, rfl⟩⟩
        | none =>
            rw [if_neg (by simp)]
            by_cases hsh : lookupD (pr.property_id, c) s.ownership = 0
            · rw [if_pos hsh]
              refine ⟨by simp [hst, hsh], fun _ => ⟨rfl, rfl⟩⟩
            · rw [if_neg hsh]
              refine ⟨?_, fun hx => absurd ⟨hst, rfl, by omega⟩ hx⟩
              exact ⟨fun _ => ⟨hst, rfl, by omega⟩, fun _ => rfl⟩
      · rw [if_pos (by simp [hst])]
        exact ⟨by simp [hst], fun _ => ⟨rfl, rfl⟩⟩

def voteWitProp : Proposal :=
  { id := 1
    property_id := 1
    proposer := 9
    description := "repaint"
    status := ProposalStatus.Open
    yes_votes := 0
    no_votes := 0
    votes := [(5, true)] }

def voteWitState : State :=
  { initState with proposals := [(1, voteWitProp)], ownership := [((1, 5), 10)] }

theorem vote_succeeds_iff_witness :
    ¬ Votable 5 1 voteWitState ∧
    (vote_on_proposal 5 1 false voteWitState).1 =
      RsResult.err "Proposal not found, not open, already voted, or no shares" ∧
    (vote_on_proposal 5 1 false voteWitState).2 = voteWitState := by
  have hnv : ¬ Votable 5 1 voteWitState := fun hx => absurd hx.2.1 (by decide)
  exact ⟨hnv, (vote_succeeds_iff 5 1 false voteWitState).2 hnv⟩

/-- C8: a successful vote adds the voter's ledger balance, read at voting
time, to the chosen tally, and `transfer_shares` never touches the proposals
map, so no later ledger transfer can alter the recorded totals. -/
theorem vote_weight_snapshot (c i : Nat) (ch : Bool) (s : State) (pr : Proposal)
    (h1 : lookupA i s.proposals = some pr) (h2 : pr.status = ProposalStatus.Open)
    (h3 : lookupA c pr.votes = none)
    (h4 : 0 < lookupD (pr.property_id, c) s.ownership) :
    lookupA i (vote_on_proposal c i ch s).2.proposals =
      some { pr with
        votes := insertA c ch pr.votes
        yes_votes :=
          if ch then pr.yes_votes + lookupD (pr.property_id, c) s.ownership
          else pr.yes_votes
        no_votes :=
          if ch then pr.no_votes
          else pr.no_votes + lookupD (pr.property_id, c) s.ownership } ∧
    (∀ p f t a s₀, (transfer_shares p f t a s₀).2.proposals = s₀.proposals) := by
  constructor
  · unfold vote_on_proposal
    rw [h1]
    dsimp only
    rw [if_neg (by simp [h2]), if_neg (by simp [h3]), if_neg (by omega)]
    dsimp only
    rw [lookupA_insertA, if_pos rfl]
  · intro p f t a s₀
    unfold transfer_shares
    by_cases hlt : lookupD (p, f) s₀.ownership < a
    · rw [if_pos hlt]
    · rw [if_neg hlt]

def snapProp : Proposal :=
  { id := 1
    property_id := 1
    proposer := 9
    description := "repaint"
    status := ProposalStatus.Open
    yes_votes := 0
    no_votes := 0
    votes := [] }

def snapState : State :=
  { initState with proposals := [(1, snapProp)], ownership := [((1, 5), 10)] }

theorem vote_weight_snapshot_witness :
    lookupA 1 snapState.proposals = some snapProp ∧
    snapProp.status = ProposalStatus.Open ∧
    lookupA 5 snapProp.votes = none ∧
    0 < lookupD (1, 5) snapState.ownership ∧
    lookupA 1
        (transfer_shares 1 5 6 10 (vote_on_proposal 5 1 true snapState).2).2.proposals =
      some { id := 1, property_id := 1, proposer := 9, description := "repaint",
             status := ProposalStatus.Open, yes_votes := 10, no_votes := 0,
             votes := [(5, true)] } := by
  have T := vote_weight_snapshot 5 1 true snapState snapProp rfl rfl rfl (by decide)
  refine ⟨rfl, rfl, rfl, by decide, ?_⟩
  rw [T.2 1 5 6 10 (vote_on_proposal 5 1 true snapState).2]
  exact T.1

/-! ### Income distribution (claim C4) -/

theorem lookupA_eq_none {κ α : Type} [DecidableEq κ] (k : κ) (l : List (κ × α))
    (h : k ∉ l.map Prod.fst) : lookupA k l = none := by
  induction l with
  | nil => rfl
  | cons e rest ih =>
      obtain ⟨ke, ve⟩ := e
      simp only [List.map_cons, List.mem_cons, not_or] at h
      rw [lookupA, if_neg (fun hh => h.1 hh.symm)]
      exact ih h.2

/-- Effect of the distribution loop of `deposit_rental_income` on the
unclaimed entitlement of one holder of the deposited property. -/
theorem deposit_fold_lookup (p amount T u : Nat)
    (own : List ((Nat × Nat) × Nat)) :
    ∀ ui : List ((Nat × Nat) × Nat), (own.map Prod.fst).Nodup →
    lookupD (p, u)
      (own.foldl
        (fun acc e =>
          if e.1.1 = p ∧ 0 < e.2 then
            updateWith (· + amount * e.2 / T) (p, e.1.2) acc
          else acc) ui) =
    lookupD (p, u) ui + amount * lookupD (p, u) own / T := by
  induction own with
  | nil =>
      intro ui _
      simp [lookupD, lookupA]
  | cons e own₀ ih =>
      intro ui hnd
      obtain ⟨⟨pe, ue⟩, ve⟩ := e
      simp only [List.map_cons, List.nodup_cons] at hnd
      obtain ⟨hmem, hnd₀⟩ := hnd
      rw [List.foldl_cons, ih _ hnd₀]
      by_cases hpe : pe = p
      case pos =>
        subst hpe
        by_cases hue : ue = u
        case pos =>
          subst hue
          have hz : lookupD (pe, ue) own₀ = 0 := by
            rw [lookupD, lookupA_eq_none _ _ hmem]
            rfl
          have hhd : lookupD (pe, ue) (((pe, ue), ve) :: own₀) = ve := by
            simp [lookupD, lookupA]
          rw [hz, hhd]
          by_cases hve : 0 < ve
          · rw [if_pos ⟨rfl, hve⟩, lookupD_updateWith, if_pos rfl]
            simp
          · have hv0 : ve = 0 := by omega
            subst hv0
            rw [if_neg (by simp)]
        case neg =>
          have hne : ¬ ((pe, ue) : Nat × Nat) = (pe, u) := by
            intro hh
            exact hue (congrArg Prod.snd hh)
          have htl : lookupD (pe, u) (((pe, ue), ve) :: own₀) = lookupD (pe, u) own₀ := by
            simp [lookupD, lookupA, hne]
          rw [htl]
          by_cases hve : 0 < ve
          · rw [if_pos ⟨rfl, hve⟩, lookupD_updateWith, if_neg hne]
          · rw [if_neg (by simp; omega)]
      case neg =>
        have hne : ¬ ((pe, ue) : Nat × Nat) = (p, u) := by
          intro hh
          exact hpe (congrArg Prod.fst hh)
        have htl : lookupD (p, u) (((pe, ue), ve) :: own₀) = lookupD (p, u) own₀ := by
          simp [lookupD, lookupA, hne]
        rw [htl]
        rw [if_neg (fun hh => hpe hh.1)]

/-- The distribution loop never touches entitlements of other properties. -/
theorem deposit_fold_lookup_other (p amount T q u : Nat) (hq : ¬ q = p)
    (own : List ((Nat × Nat) × Nat)) :
    ∀ ui : List ((Nat × Nat) × Nat),
    lookupD (q, u)
      (own.foldl
        (fun acc e =>
          if e.1.1 = p ∧ 0 < e.2 then
            updateWith (· + amount * e.2 / T) (p, e.1.2) acc
          else acc) ui) =
    lookupD (q, u) ui := by
  induction own with
  | nil => intro ui; rfl
  | cons e own₀ ih =>
      intro ui
      rw [List.foldl_cons, ih]
      by_cases hg : e.1.1 = p ∧ 0 < e.2
      · rw [if_pos hg, lookupD_updateWith,
          if_neg (fun hh => hq (congrArg Prod.fst hh).symm)]
      · rw [if_neg hg]

/-- C4: a successful deposit on a property with positive `total_shares`
credits every holder `u` of that property with exactly
`amount * balance / total_shares` (integer floor division) on top of the
previous entitlement — in particular holders with zero or absent balance are
unchanged — and leaves entitlements for every other property untouched. -/
theorem deposit_distribution (p amount : Nat) (s : State) (pr : Property)
    (hp : lookupA p s.properties = some pr) (ht : 0 < pr.total_shares)
    (hnd : (s.ownership.map Prod.fst).Nodup) :
    (deposit_rental_income p amount s).1 = RsResult.ok "Rental income distributed" ∧
    (∀ u, get_unclaimed_income p u (deposit_rental_income p amount s).2 =
        get_unclaimed_income p u s + amount * get_ownership p u s / pr.total_shares) ∧
    (∀ q u, ¬ q = p → get_unclaimed_income q u (deposit_rental_income p amount s).2 =
        get_unclaimed_income q u s) := by
  unfold deposit_rental_income
  dsimp only
  rw [hp]
  dsimp only
  rw [if_neg (by omega)]
  refine ⟨rfl, fun u => ?_, fun q u hq => ?_⟩
  · simp only [get_unclaimed_income, get_ownership]
    exact deposit_fold_lookup p amount pr.total_shares u s.ownership s.unclaimedIncome hnd
  · simp only [get_unclaimed_income]
    exact deposit_fold_lookup_other p amount pr.total_shares q u hq s.ownership
      s.unclaimedIncome

def depProp : Property :=
  { id := 1
    name := "House"
    total_shares := 100
    shares_available := 0
    metadata := { location := "L", description := "D" }
    status := PropertyStatus.Active }

def depState : State :=
  { initState with
      properties := [(1, depProp)]
      ownership := [((1, 1), 60), ((1, 2), 40)] }

theorem deposit_distribution_witness :
    lookupA 1 depState.properties = some depProp ∧
    0 < depProp.total_shares ∧
    (depState.ownership.map Prod.fst).Nodup ∧
    get_unclaimed_income 1 1 (deposit_rental_income 1 101 depState).2 = 60 ∧
    get_unclaimed_income 1 2 (deposit_rental_income 1 101 depState).2 = 40 ∧
    get_unclaimed_income 1 1
      (deposit_rental_income 1 101 (deposit_rental_income 1 101 depState).2).2 = 120 := by
  have T1 := deposit_distribution 1 101 depState depProp rfl (by decide) (by decide)
  have T2 := deposit_distribution 1 101 (deposit_rental_income 1 101 depState).2 depProp
    rfl (by decide) (by decide)
  refine ⟨rfl, by decide, by decide, ?_, ?_, ?_⟩
  · rw [T1.2.1 1]
    decide
  · rw [T1.2.1 2]
    decide
  · rw [T2.2.1 1, T1.2.1 1]
    decide

/-! ### Metadata / status update gates (claim C5) -/

/-- C5 counterexample: with no registered properties and a caller whose role
defaults to `User`, `update_property_metadata` fails with the Unauthorized
error even though the property id is unknown — the unknown-property check
does not take precedence over the role check. -/
theorem update_gate_order_counterexample :
    lookupA 1 initState.properties = none ∧
    (update_property_metadata 1 { location := "L", description := "D" } 9 initState).1 =
      RsResult.err "Only admin can update property metadata" ∧
    ¬ (update_property_metadata 1 { location := "L", description := "D" } 9 initState).1 =
        RsResult.err "Property not found" := by
  decide

/-- C5 amended: in both update operations the Admin role check runs first: a
non-admin actor fails with Unauthorized regardless of property existence; an
Admin actor fails with NotFound exactly when the property id is unknown; on
success the only side effect is the in-place replacement of the metadata
(resp. status) field. -/
theorem update_property_gates (p : Nat) (m : PropertyMetadata) (st : PropertyStatus)
    (c : Nat) (s : State) :
    (¬ get_role c s = Role.Admin →
      update_property_metadata p m c s =
        (.err "Only admin can update property metadata", s) ∧
      update_property_status p st c s =
        (.err "Only admin can update property status", s)) ∧
    (get_role c s = Role.Admin → lookupA p s.properties = none →
      update_property_metadata p m c s = (.err "Property not found", s) ∧
      update_property_status p st c s = (.err "Property not found", s)) ∧
    (∀ pr, get_role c s = Role.Admin → lookupA p s.properties = some pr →
      update_property_metadata p m c s =
        (.ok "Property metadata updated",
          { s with properties := insertA p { pr with metadata := m } s.properties }) ∧
      update_property_status p st c s =
        (.ok "Property status updated",
          { s with properties := insertA p { pr with status := st } s.properties })) := by
  refine ⟨fun hr => ?_, fun hr hn => ?_, fun pr hr hp => ?_⟩
  · unfold update_property_metadata update_property_status
    rw [if_pos hr, if_pos hr]
    exact ⟨rfl, rfl⟩
  · unfold update_property_metadata update_property_status
    rw [if_neg (by simp [hr]), if_neg (by simp [hr]), hn]
    exact ⟨rfl, rfl⟩
  · unfold update_property_metadata update_property_status
    rw [if_neg (by simp [hr]), if_neg (by simp [hr]), hp]
    exact ⟨rfl, rfl⟩

def gateState : State :=
  { initState with
      properties := [(1, depProp)]
      roles := [(7, Role.Admin)] }

theorem update_property_gates_witness :
    (¬ get_role 9 gateState = Role.Admin ∧
      (update_property_metadata 2 { location := "X", description := "Y" } 9 gateState).1 =
        RsResult.err "Only admin can update property metadata") ∧
    (get_role 7 gateState = Role.Admin ∧ lookupA 2 gateState.properties = none ∧
      (update_property_metadata 2 { location := "X", description := "Y" } 7 gateState).1 =
        RsResult.err "Property not found") ∧
    (lookupA 1 gateState.properties = some depProp ∧
      update_property_status 1 PropertyStatus.Sold 7 gateState =
        (RsResult.ok "Property status updated",
          { gateState with properties :=
              (insertA 1 { depProp with status := PropertyStatus.Sold }
                gateState.properties) })) := by
  refine ⟨⟨by decide, ?_⟩, ⟨rfl, rfl, ?_⟩, ⟨rfl, ?_⟩⟩
  · rw [((update_property_gates 2 { location := "X", description := "Y" }
      PropertyStatus.Sold 9 gateState).1 (by decide)).1]
  · rw [((update_property_gates 2 { location := "X", description := "Y" }
      PropertyStatus.Sold 7 gateState).2.1 rfl rfl).1]
  · exact ((update_property_gates 1 { location := "X", description := "Y" }
      PropertyStatus.Sold 7 gateState).2.2 depProp rfl rfl).2

/-! ### Deposit failure path (claim C3) -/

/-- C3 counterexample: depositing on an unregistered property returns the
NotFound error, yet the cumulative deposited-income total for that property
is still incremented — the state is not left unchanged. -/
theorem deposit_failure_counterexample :
    (deposit_rental_income 7 5 initState).1 =
      RsResult.err "Property not found or has no shares" ∧
    lookupA 7 initState.rentalIncome = none ∧
    lookupA 7 (deposit_rental_income 7 5 initState).2.rentalIncome = some 5 := by
  decide

/-- C3 amended: when the property is unknown or has zero `total_shares`,
`deposit_rental_income` returns the NotFound error, but the cumulative
deposited-income total for the property has already been incremented by
`amount`; every other component of the state is unchanged. -/
theorem deposit_failure_updates_total (p amount : Nat) (s : State)
    (h : ∀ pr, lookupA p s.properties = some pr → pr.total_shares = 0) :
    deposit_rental_income p amount s =
      (.err "Property not found or has no shares",
        { s with rentalIncome := updateWith (· + amount) p s.rentalIncome }) := by
  unfold deposit_rental_income
  dsimp only
  cases hl : lookupA p s.properties with
  | none =>
      rw [if_pos rfl]
  | some pr =>
      dsimp only
      rw [if_pos (h pr hl)]

theorem deposit_failure_updates_total_witness :
    (∀ pr, lookupA 7 initState.properties = some pr → pr.total_shares = 0) ∧
    deposit_rental_income 7 5 initState =
      (.err "Property not found or has no shares",
        { initState with rentalIncome := updateWith (· + 5) 7 initState.rentalIncome }) :=
  ⟨fun pr hpr => by simp [initState, lookupA] at hpr,
   deposit_failure_updates_total 7 5 initState
     (fun pr hpr => by simp [initState, lookupA] at hpr)⟩

/-! ### The marketplace settlement slip (claim C2) -/

/-- A state reachable by: register a 100-share property, issue 5 shares to
seller 1, list those 5 shares at price 7, then transfer 2 shares away to
user 2 — leaving the seller's live balance at 3 with a stale listing of 5. -/
def buyBugState : State :=
  runOps
    [Op.opRegister "House" 100 { location := "L", description := "D" },
     Op.opIssue 1 1 5,
     Op.opList 1 1 5 7,
     Op.opTransfer 1 1 2 2]
    initState

/-- C2, evaluated at the failing input: the listing matches (amount 5 ≥ 5)
but the seller's live balance is 3 < 5.  The source's inner `return` only
exits the ownership closure, so the call still reports success, consumes the
listing, and transfers no shares — instead of failing with
`InsufficientBalance` and leaving the listing unchanged as the claim
states. -/
theorem buy_shares_insufficient_balance_bug :
    buyBugState.marketplace =
      [{ property_id := 1, seller := 1, amount := 5, price_per_share := 7 }] ∧
    get_ownership 1 1 buyBugState = 3 ∧
    (buy_shares 1 1 3 5 buyBugState).1 = RsResult.ok "Shares bought successfully" ∧
    (buy_shares 1 1 3 5 buyBugState).2.marketplace = [] ∧
    get_ownership 1 1 (buy_shares 1 1 3 5 buyBugState).2 = 3 ∧
    get_ownership 1 3 (buy_shares 1 1 3 5 buyBugState).2 = 0 := by
  decide

/-! ### Marketplace settlement never touches funds or prices (claim C10) -/

/-- A listing without its price: the only data `buy_shares` acts on. -/
def stripPrice (l : Listing) : Nat × Nat × Nat := (l.property_id, l.seller, l.amount)

/-- Reassign every listing's `price_per_share` by position, leaving the rest
of each listing unchanged; ranging over `f` this produces every possible
price reassignment of a marketplace. -/
def reprice (f : Nat → Nat) : List Listing → List Listing
  | [] => []
  | l :: rest => { l with price_per_share := f 0 } :: reprice (fun i => f (i + 1)) rest

theorem stripPrice_reprice (f : Nat → Nat) (mp : List Listing) :
    (reprice f mp).map stripPrice = mp.map stripPrice := by
  induction mp generalizing f with
  | nil => rfl
  | cons l rest ih => simp [reprice, stripPrice, ih]

theorem findListing_reprice (p se a : Nat) (f : Nat → Nat) (mp : List Listing) :
    findListing p se a (reprice f mp) =
      (findListing p se a mp).map
        (fun r => (r.1, { r.2 with price_per_share := f r.1 })) := by
  induction mp generalizing f with
  | nil => rfl
  | cons l rest ih =>
      rw [reprice]
      unfold findListing
      dsimp only
      by_cases hc : l.property_id = p ∧ l.seller = se ∧ a ≤ l.amount
      · rw [if_pos hc, if_pos hc]
        rfl
      · rw [if_neg hc, if_neg hc, ih]
        cases findListing p se a rest with
        | none => rfl
        | some r => rfl

theorem stripPrice_eraseIdx (f : Nat → Nat) (mp : List Listing) (pos : Nat) :
    ((reprice f mp).eraseIdx pos).map stripPrice = (mp.eraseIdx pos).map stripPrice := by
  induction mp generalizing f pos with
  | nil => rfl
  | cons l rest ih =>
      cases pos with
      | zero => simpa [reprice] using stripPrice_reprice (fun i => f (i + 1)) rest
      | succ n =>
          simp only [reprice, List.eraseIdx_cons_succ, List.map_cons]
          rw [ih]
          rfl

theorem stripPrice_set (f : Nat → Nat) (mp : List Listing) (pos : Nat) (x y : Listing)
    (h : stripPrice x = stripPrice y) :
    ((reprice f mp).set pos x).map stripPrice = (mp.set pos y).map stripPrice := by
  induction mp generalizing f pos with
  | nil => rfl
  | cons l rest ih =>
      cases pos with
      | zero =>
          simp only [reprice, List.set_cons_zero, List.map_cons, h,
            stripPrice_reprice]
      | succ n =>
          simp only [reprice, List.set_cons_succ, List.map_cons]
          rw [ih]
          rfl

/-- C10: `buy_shares` never moves payment.  Its result, the resulting
balances, and the shape of the resulting marketplace are unchanged under any
reassignment of every listing's `price_per_share`; and the only state a call
can modify is the seller's and buyer's balances for that property plus the
matched listing's presence/amount — funds, income and entitlement state are
never debited or credited. -/
theorem buy_shares_price_independent (p seller buyer a : Nat) (s : State)
    (f : Nat → Nat) :
    ((buy_shares p seller buyer a { s with marketplace := reprice f s.marketplace }).1 =
        (buy_shares p seller buyer a s).1 ∧
      (buy_shares p seller buyer a
          { s with marketplace := reprice f s.marketplace }).2.ownership =
        (buy_shares p seller buyer a s).2.ownership ∧
      (buy_shares p seller buyer a
          { s with marketplace := reprice f s.marketplace }).2.marketplace.map stripPrice =
        (buy_shares p seller buyer a s).2.marketplace.map stripPrice) ∧
    ((buy_shares p seller buyer a s).2.properties = s.properties ∧
      (buy_shares p seller buyer a s).2.rentalIncome = s.rentalIncome ∧
      (buy_shares p seller buyer a s).2.unclaimedIncome = s.unclaimedIncome ∧
      (buy_shares p seller buyer a s).2.proposals = s.proposals ∧
      (buy_shares p seller buyer a s).2.roles = s.roles ∧
      (buy_shares p seller buyer a s).2.kyc = s.kyc ∧
      (buy_shares p seller buyer a s).2.nextPropertyId = s.nextPropertyId ∧
      (buy_shares p seller buyer a s).2.nextProposalId = s.nextProposalId ∧
      (buy_shares p seller buyer a s).2.bootstrapped = s.bootstrapped) ∧
    (∀ q u, ¬ (q, u) = ((p, seller) : Nat × Nat) → ¬ (q, u) = ((p, buyer) : Nat × Nat) →
      get_ownership q u (buy_shares p seller buyer a s).2 = get_ownership q u s) ∧
    ((buy_shares p seller buyer a s).2.marketplace = s.marketplace ∨
      ∃ pos l, findListing p seller a s.marketplace = some (pos, l) ∧
        ((buy_shares p seller buyer a s).2.marketplace = s.marketplace.eraseIdx pos ∨
          (buy_shares p seller buyer a s).2.marketplace =
            s.marketplace.set pos { l with amount := l.amount - a })) := by
  unfold buy_shares
  dsimp only
  rw [findListing_reprice]
  cases hf : findListing p seller a s.marketplace with
  | none =>
      dsimp only
      exact ⟨⟨rfl, rfl, stripPrice_reprice f s.marketplace⟩,
        ⟨rfl, rfl, rfl, rfl, rfl, rfl, rfl, rfl, rfl⟩,
        fun q u _ _ => rfl, Or.inl rfl⟩
  | some posl =>
      obtain ⟨pos, l⟩ := posl
      dsimp only [Option.map]
      refine ⟨⟨rfl, rfl, ?_⟩,
        ⟨rfl, rfl, rfl, rfl, rfl, rfl, rfl, rfl, rfl⟩,
        fun q u hqs hqb => ?_, ?_⟩
      · by_cases hla : l.amount = a
        · rw [if_pos hla, if_pos hla]
          exact stripPrice_eraseIdx f s.marketplace pos
        · rw [if_neg hla, if_neg hla]
          exact stripPrice_set f s.marketplace pos _ _ rfl
      · dsimp only [get_ownership]
        by_cases hlt : lookupD (p, seller) s.ownership < a
        · rw [if_pos hlt, lookupD_updateWith, if_neg (fun hh => hqs hh.symm)]
        · rw [if_neg hlt, lookupD_updateWith, if_neg (fun hh => hqb hh.symm),
            lookupD_updateWith, if_neg (fun hh => hqs hh.symm),
            lookupD_updateWith, if_neg (fun hh => hqs hh.symm)]
      · refine Or.inr ⟨pos, l, rfl, ?_⟩
        by_cases hla : l.amount = a
        · rw [if_pos hla]
          exact Or.inl rfl
        · rw [if_neg hla]
          exact Or.inr rfl

theorem buy_shares_price_independent_witness :
    (buy_shares 1 1 3 5
        { buyBugState with
            marketplace := reprice (fun _ => 99) buyBugState.marketplace }).1 =
      (buy_shares 1 1 3 5 buyBugState).1 ∧
    ¬ ((2, 2) : Nat × Nat) = ((1, 1) : Nat × Nat) ∧
    ¬ ((2, 2) : Nat × Nat) = ((1, 3) : Nat × Nat) ∧
    get_ownership 2 2 (buy_shares 1 1 3 5 buyBugState).2 =
      get_ownership 2 2 buyBugState := by
  have T := buy_shares_price_independent 1 1 3 5 buyBugState (fun _ => 99)
  exact ⟨T.1.1, by decide, by decide, T.2.2.1 2 2 (by decide) (by decide)⟩

/-! ### Zero balances behave like absent entries (claim C9) -/

theorem lookupA_append_none {κ α : Type} [DecidableEq κ] (k : κ)
    (l₁ l₂ : List (κ × α)) (h : lookupA k l₁ = none) :
    lookupA k (l₁ ++ l₂) = lookupA k l₂ := by
  induction l₁ with
  | nil => rfl
  | cons e rest ih =>
      obtain ⟨ke, ve⟩ := e
      rw [lookupA] at h
      by_cases hk : ke = k
      · rw [if_pos hk] at h
        cases h
      · rw [if_neg hk] at h
        rw [List.cons_append, lookupA, if_neg hk]
        exact ih h

theorem lookupA_append_left {κ α : Type} [DecidableEq κ] (k : κ)
    (l₁ l₂ : List (κ × α)) (v : α) (h : lookupA k l₁ = some v) :
    lookupA k (l₁ ++ l₂) = some v := by
  induction l₁ with
  | nil => cases h
  | cons e rest ih =>
      obtain ⟨ke, ve⟩ := e
      rw [lookupA] at h
      by_cases hk : ke = k
      · rw [if_pos hk] at h
        rw [List.cons_append, lookupA, if_pos hk]
        exact h
      · rw [if_neg hk] at h
        rw [List.cons_append, lookupA, if_neg hk]
        exact ih h

/-- Splitting a freshness fact for a key across an append. -/
theorem lookupA_append_eq_none {κ α : Type} [DecidableEq κ] (k : κ)
    (l₁ l₂ : List (κ × α)) (h : lookupA k (l₁ ++ l₂) = none) :
    lookupA k l₁ = none ∧ lookupA k l₂ = none := by
  cases hl : lookupA k l₁ with
  | none => exact ⟨rfl, by rw [lookupA_append_none k l₁ l₂ hl] at h; exact h⟩
  | some v => rw [lookupA_append_left k l₁ l₂ v hl] at h; cases h

/-- Looking a key up across the insertion of a fresh zero entry. -/
theorem lookupA_insMid (k₀ k : Nat × Nat) (pre post : List ((Nat × Nat) × Nat))
    (hf : lookupA k₀ (pre ++ post) = none) :
    lookupA k (pre ++ (k₀, 0) :: post) =
      if k₀ = k then some 0 else lookupA k (pre ++ post) := by
  obtain ⟨hfpre, hfpost⟩ := lookupA_append_eq_none k₀ pre post hf
  by_cases hk : k₀ = k
  · subst hk
    rw [if_pos rfl, lookupA_append_none _ _ _ hfpre, lookupA, if_pos rfl]
  · rw [if_neg hk]
    cases hl : lookupA k pre with
    | some v =>
        rw [lookupA_append_left _ _ _ _ hl, lookupA_append_left _ _ _ _ hl]
    | none =>
        rw [lookupA_append_none _ _ _ hl, lookupA_append_none _ _ _ hl, lookupA,
          if_neg hk]

theorem lookupD_insMid (k₀ k : Nat × Nat) (pre post : List ((Nat × Nat) × Nat))
    (hf : lookupA k₀ (pre ++ post) = none) :
    lookupD k (pre ++ (k₀, 0) :: post) = lookupD k (pre ++ post) := by
  rw [lookupD, lookupA_insMid k₀ k pre post hf]
  by_cases hk : k₀ = k
  · rw [if_pos hk, lookupD, ← hk, hf]
    rfl
  · rw [if_neg hk, lookupD]

/-- Any filter rejecting the inserted zero entry cannot see it. -/
theorem filter_insMid (k₀ : Nat × Nat) (pre post : List ((Nat × Nat) × Nat))
    (q : ((Nat × Nat) × Nat) → Bool) (hq : q (k₀, 0) = false) :
    (pre ++ (k₀, 0) :: post).filter q = (pre ++ post).filter q := by
  simp [List.filter_append, List.filter_cons, hq]

/-- Any fold whose step ignores the inserted zero entry cannot see it. -/
theorem foldl_insMid {β : Type} (k₀ : Nat × Nat) (pre post : List ((Nat × Nat) × Nat))
    (fn : β → ((Nat × Nat) × Nat) → β) (hz : ∀ acc, fn acc (k₀, 0) = acc) (init : β) :
    (pre ++ (k₀, 0) :: post).foldl fn init = (pre ++ post).foldl fn init := by
  rw [List.foldl_append, List.foldl_append, List.foldl_cons, hz]

/-- The entries with a positive balance. -/
def posEntries (own : List ((Nat × Nat) × Nat)) : List ((Nat × Nat) × Nat) :=
  own.filter (fun e => decide (0 < e.2))

/-- The multiset of positive entries: what the per-entry observations
(ownership statements, distribution loops) can see, up to the arbitrary
iteration order of the underlying `HashMap`. -/
def posMS (own : List ((Nat × Nat) × Nat)) : Multiset ((Nat × Nat) × Nat) :=
  (posEntries own : Multiset ((Nat × Nat) × Nat))

/-- Observational agreement of two ownership maps: equal balances at every
key and the same multiset of positive entries. -/
def OwnObs (o₁ o₂ : List ((Nat × Nat) × Nat)) : Prop :=
  (∀ k, lookupD k o₁ = lookupD k o₂) ∧ posMS o₁ = posMS o₂

theorem ownObs_insMid (k₀ : Nat × Nat) (pre post : List ((Nat × Nat) × Nat))
    (hf : lookupA k₀ (pre ++ post) = none) :
    OwnObs (pre ++ post) (pre ++ (k₀, 0) :: post) := by
  constructor
  · intro k
    exact (lookupD_insMid k₀ k pre post hf).symm
  · unfold posMS posEntries
    rw [filter_insMid k₀ pre post _ (by simp)]

/-- The positive entry contributed by one slot. -/
def pm (e : (Nat × Nat) × Nat) : Multiset ((Nat × Nat) × Nat) :=
  if 0 < e.2 then {e} else 0

theorem posMS_cons (e : (Nat × Nat) × Nat) (o : List ((Nat × Nat) × Nat)) :
    posMS (e :: o) = pm e + posMS o := by
  unfold posMS posEntries pm
  by_cases he : 0 < e.2
  · rw [if_pos he, List.filter_cons_of_pos (by simpa using he)]
    rfl
  · rw [if_neg he, List.filter_cons_of_neg (by simpa using he)]
    simp

/-- Exchange law for the positive-entry multiset under an in-place update:
the update swaps the contribution of the key's first slot. -/
theorem posMS_updateWith (g : Nat → Nat) (k : Nat × Nat)
    (o : List ((Nat × Nat) × Nat)) :
    posMS (updateWith g k o) + pm (k, lookupD k o) =
      posMS o + pm (k, g (lookupD k o)) := by
  induction o with
  | nil =>
      show posMS [(k, g 0)] + pm (k, lookupD k []) = posMS [] + pm (k, g (lookupD k []))
      have h0 : lookupD k ([] : List ((Nat × Nat) × Nat)) = 0 := rfl
      rw [h0, posMS_cons]
      show pm (k, g 0) + posMS [] + pm (k, 0) = posMS [] + pm (k, g 0)
      have : pm ((k, 0) : (Nat × Nat) × Nat) = 0 := by simp [pm]
      rw [this]
      show pm (k, g 0) + posMS [] + 0 = posMS [] + pm (k, g 0)
      rw [add_zero, add_comm]
  | cons e rest ih =>
      obtain ⟨ke, ve⟩ := e
      by_cases hk : ke = k
      · subst hk
        have hl : lookupD ke ((ke, ve) :: rest) = ve := by
          simp [lookupD, lookupA]
        rw [updateWith, if_pos rfl, hl, posMS_cons, posMS_cons]
        show pm (ke, g ve) + posMS rest + pm (ke, ve) =
          pm (ke, ve) + posMS rest + pm (ke, g ve)
        ac_rfl
      · have hl : lookupD k ((ke, ve) :: rest) = lookupD k rest := by
          simp [lookupD, lookupA, hk]
        rw [updateWith, if_neg hk, hl, posMS_cons, posMS_cons]
        calc pm (ke, ve) + posMS (updateWith g k rest) + pm (k, lookupD k rest)
            = pm (ke, ve) + (posMS (updateWith g k rest) + pm (k, lookupD k rest)) := by
              rw [add_assoc]
          _ = pm (ke, ve) + (posMS rest + pm (k, g (lookupD k rest))) := by rw [ih]
          _ = pm (ke, ve) + posMS rest + pm (k, g (lookupD k rest)) := by rw [add_assoc]

/-- Observational agreement of ownership maps is preserved by every
`entry(..).or_insert(0)`-style update the operations perform. -/
theorem ownObs_updateWith (g : Nat → Nat) (k : Nat × Nat)
    (o₁ o₂ : List ((Nat × Nat) × Nat)) (h : OwnObs o₁ o₂) :
    OwnObs (updateWith g k o₁) (updateWith g k o₂) := by
  obtain ⟨hl, hm⟩ := h
  constructor
  · intro q
    rw [lookupD_updateWith, lookupD_updateWith, hl k]
    by_cases hq : k = q
    · rw [if_pos hq, if_pos hq]
    · rw [if_neg hq, if_neg hq, hl q]
  · have h₁ := posMS_updateWith g k o₁
    have h₂ := posMS_updateWith g k o₂
    rw [hl k] at h₁
    rw [hm] at h₁
    rw [← h₂] at h₁
    exact add_right_cancel h₁

/-- Observational equality of two whole states: every component other than
the ownership map is equal, and the ownership maps agree observationally. -/
def obsEq (s₁ s₂ : State) : Prop :=
  s₁.properties = s₂.properties ∧
  s₁.nextPropertyId = s₂.nextPropertyId ∧
  s₁.rentalIncome = s₂.rentalIncome ∧
  s₁.unclaimedIncome = s₂.unclaimedIncome ∧
  s₁.marketplace = s₂.marketplace ∧
  s₁.admins = s₂.admins ∧
  s₁.roles = s₂.roles ∧
  s₁.kyc = s₂.kyc ∧
  s₁.bootstrapped = s₂.bootstrapped ∧
  s₁.proposals = s₂.proposals ∧
  s₁.nextProposalId = s₂.nextProposalId ∧
  OwnObs s₁.ownership s₂.ownership

/-- C9: a stored zero balance behaves exactly like an absent entry.  For any
state and any position at which an explicit zero entry for a fresh
(property, holder) key is inserted into the ownership map, every exposed
operation returns the same answer on both states and produces
observationally equal successor states. -/
theorem zero_balance_equals_absent (op : Op) (s : State) (k₀ : Nat × Nat)
    (pre post : List ((Nat × Nat) × Nat)) (hf : lookupA k₀ (pre ++ post) = none) :
    (applyOpFull op { s with ownership := pre ++ post }).1 =
      (applyOpFull op { s with ownership := pre ++ (k₀, 0) :: post }).1 ∧
    obsEq (applyOpFull op { s with ownership := pre ++ post }).2
      (applyOpFull op { s with ownership := pre ++ (k₀, 0) :: post }).2 := by
  have hOO : OwnObs (pre ++ post) (pre ++ (k₀, 0) :: post) := ownObs_insMid k₀ pre post hf
  have hD : ∀ k, lookupD k (pre ++ (k₀, 0) :: post) = lookupD k (pre ++ post) :=
    fun k => lookupD_insMid k₀ k pre post hf
  cases op
  case opSetKyc c u fl =>
    dsimp only [applyOpFull, set_kyc_status, get_role]
    by_cases hr : (lookupA c s.roles).getD Role.User ≠ Role.Admin
    · rw [if_pos hr, if_pos hr]
      exact ⟨rfl, rfl, rfl, rfl, rfl, rfl, rfl, rfl, rfl, rfl, rfl, rfl, hOO⟩
    · rw [if_neg hr, if_neg hr]
      exact ⟨rfl, rfl, rfl, rfl, rfl, rfl, rfl, rfl, rfl, rfl, rfl, rfl, hOO⟩
  case opSetRole c u ro =>
    dsimp only [applyOpFull, set_role, get_role]
    by_cases hr : (lookupA c s.roles).getD Role.User ≠ Role.Admin
    · rw [if_pos hr, if_pos hr]
      exact ⟨rfl, rfl, rfl, rfl, rfl, rfl, rfl, rfl, rfl, rfl, rfl, rfl, hOO⟩
    · rw [if_neg hr, if_neg hr]
      exact ⟨rfl, rfl, rfl, rfl, rfl, rfl, rfl, rfl, rfl, rfl, rfl, rfl, hOO⟩
  case opBootstrap adm =>
    dsimp only [applyOpFull, bootstrap_admin]
    by_cases hb : s.bootstrapped = true
    · rw [if_pos hb, if_pos hb]
      exact ⟨rfl, rfl, rfl, rfl, rfl, rfl, rfl, rfl, rfl, rfl, rfl, rfl, hOO⟩
    · rw [if_neg hb, if_neg hb]
      exact ⟨rfl, rfl, rfl, rfl, rfl, rfl, rfl, rfl, rfl, rfl, rfl, rfl, hOO⟩
  case opMyRole c =>
    exact ⟨rfl, rfl, rfl, rfl, rfl, rfl, rfl, rfl, rfl, rfl, rfl, rfl, hOO⟩
  case opMyKyc c =>
    exact ⟨rfl, rfl, rfl, rfl, rfl, rfl, rfl, rfl, rfl, rfl, rfl, rfl, hOO⟩
  case opUpdMetadata p m c =>
    dsimp only [applyOpFull, update_property_metadata, get_role]
    by_cases hr : (lookupA c s.roles).getD Role.User ≠ Role.Admin
    · rw [if_pos hr, if_pos hr]
      exact ⟨rfl, rfl, rfl, rfl, rfl, rfl, rfl, rfl, rfl, rfl, rfl, rfl, hOO⟩
    · rw [if_neg hr, if_neg hr]
      cases hl : lookupA p s.properties with
      | none =>
          exact ⟨rfl, rfl, rfl, rfl, rfl, rfl, rfl, rfl, rfl, rfl, rfl, rfl, hOO⟩
      | some pr =>
          exact ⟨rfl, rfl, rfl, rfl, rfl, rfl, rfl, rfl, rfl, rfl, rfl, rfl, hOO⟩
  case opUpdStatus p st c =>
    dsimp only [applyOpFull, update_property_status, get_role]
    by_cases hr : (lookupA c s.roles).getD Role.User ≠ Role.Admin
    · rw [if_pos hr, if_pos hr]
      exact ⟨rfl, rfl, rfl, rfl, rfl, rfl, rfl, rfl, rfl, rfl, rfl, rfl, hOO⟩
    · rw [if_neg hr, if_neg hr]
      cases hl : lookupA p s.properties with
      | none =>
          exact ⟨rfl, rfl, rfl, rfl, rfl, rfl, rfl, rfl, rfl, rfl, rfl, rfl, hOO⟩
      | some pr =>
          exact ⟨rfl, rfl, rfl, rfl, rfl, rfl, rfl, rfl, rfl, rfl, rfl, rfl, hOO⟩
  case opRegister n t m =>
    exact ⟨rfl, rfl, rfl, rfl, rfl, rfl, rfl, rfl, rfl, rfl, rfl, rfl, hOO⟩
  case opIssue p u a =>
    dsimp only [applyOpFull, issue_shares]
    cases hl : lookupA p s.properties with
    | none =>
        exact ⟨rfl, rfl, rfl, rfl, rfl, rfl, rfl, rfl, rfl, rfl, rfl, rfl, hOO⟩
    | some pr =>
        dsimp only
        by_cases ha : a ≤ pr.shares_available
        · rw [if_pos ha, if_pos ha]
          exact ⟨rfl, rfl, rfl, rfl, rfl, rfl, rfl, rfl, rfl, rfl, rfl, rfl,
            ownObs_updateWith _ _ _ _ hOO⟩
        · rw [if_neg ha, if_neg ha]
          exact ⟨rfl, rfl, rfl, rfl, rfl, rfl, rfl, rfl, rfl, rfl, rfl, rfl, hOO⟩
  case opGetProperty p =>
    exact ⟨rfl, rfl, rfl, rfl, rfl, rfl, rfl, rfl, rfl, rfl, rfl, rfl, hOO⟩
  case opGetOwnership p u =>
    exact ⟨congrArg Answer.natAns (hD (p, u)).symm,
      rfl, rfl, rfl, rfl, rfl, rfl, rfl, rfl, rfl, rfl, rfl, hOO⟩
  case opDeposit p a =>
    dsimp only [applyOpFull, deposit_rental_income]
    cases hl : lookupA p s.properties with
    | none =>
        dsimp only
        rw [if_pos rfl, if_pos rfl]
        exact ⟨rfl, rfl, rfl, rfl, rfl, rfl, rfl, rfl, rfl, rfl, rfl, rfl, hOO⟩
    | some pr =>
        dsimp only
        by_cases ht : pr.total_shares = 0
        · rw [if_pos ht, if_pos ht]
          exact ⟨rfl, rfl, rfl, rfl, rfl, rfl, rfl, rfl, rfl, rfl, rfl, rfl, hOO⟩
        · rw [if_neg ht, if_neg ht]
          refine ⟨rfl, rfl, rfl, rfl, ?_, rfl, rfl, rfl, rfl, rfl, rfl, rfl, hOO⟩
          refine (foldl_insMid k₀ pre post _ ?_ _).symm
          intro acc
          exact if_neg (by simp)
  case opClaim p u =>
    exact ⟨rfl, rfl, rfl, rfl, rfl, rfl, rfl, rfl, rfl, rfl, rfl, rfl, hOO⟩
  case opGetUnclaimed p u =>
    exact ⟨rfl, rfl, rfl, rfl, rfl, rfl, rfl, rfl, rfl, rfl, rfl, rfl, hOO⟩
  case opList p se a ppr =>
    dsimp only [applyOpFull, list_shares_for_sale]
    rw [hD (p, se)]
    by_cases hlt : lookupD (p, se) (pre ++ post) < a
    · rw [if_pos hlt, if_pos hlt]
      exact ⟨rfl, rfl, rfl, rfl, rfl, rfl, rfl, rfl, rfl, rfl, rfl, rfl, hOO⟩
    · rw [if_neg hlt, if_neg hlt]
      exact ⟨rfl, rfl, rfl, rfl, rfl, rfl, rfl, rfl, rfl, rfl, rfl, rfl, hOO⟩
  case opBuy p se b a =>
    dsimp only [applyOpFull, buy_shares]
    cases hfl : findListing p se a s.marketplace with
    | none =>
        exact ⟨rfl, rfl, rfl, rfl, rfl, rfl, rfl, rfl, rfl, rfl, rfl, rfl, hOO⟩
    | some posl =>
        obtain ⟨pos, l⟩ := posl
        dsimp only
        rw [hD (p, se)]
        by_cases hlt : lookupD (p, se) (pre ++ post) < a
        · rw [if_pos hlt, if_pos hlt]
          exact ⟨rfl, rfl, rfl, rfl, rfl, rfl, rfl, rfl, rfl, rfl, rfl, rfl,
            ownObs_updateWith _ _ _ _ hOO⟩
        · rw [if_neg hlt, if_neg hlt]
          exact ⟨rfl, rfl, rfl, rfl, rfl, rfl, rfl, rfl, rfl, rfl, rfl, rfl,
            ownObs_updateWith _ _ _ _
              (ownObs_updateWith _ _ _ _ (ownObs_updateWith _ _ _ _ hOO))⟩
  case opTransfer p fr toU a =>
    dsimp only [applyOpFull, transfer_shares]
    rw [hD (p, fr)]
    by_cases hlt : lookupD (p, fr) (pre ++ post) < a
    · rw [if_pos hlt, if_pos hlt]
      exact ⟨rfl, rfl, rfl, rfl, rfl, rfl, rfl, rfl, rfl, rfl, rfl, rfl,
        ownObs_updateWith _ _ _ _ hOO⟩
    · rw [if_neg hlt, if_neg hlt]
      exact ⟨rfl, rfl, rfl, rfl, rfl, rfl, rfl, rfl, rfl, rfl, rfl, rfl,
        ownObs_updateWith _ _ _ _
          (ownObs_updateWith _ _ _ _ (ownObs_updateWith _ _ _ _ hOO))⟩
  case opListings =>
    exact ⟨rfl, rfl, rfl, rfl, rfl, rfl, rfl, rfl, rfl, rfl, rfl, rfl, hOO⟩
  case opSubmit c p d =>
    exact ⟨rfl, rfl, rfl, rfl, rfl, rfl, rfl, rfl, rfl, rfl, rfl, rfl, hOO⟩
  case opVote c i ch =>
    dsimp only [applyOpFull, vote_on_proposal]
    cases hl : lookupA i s.proposals with
    | none =>
        exact ⟨rfl, rfl, rfl, rfl, rfl, rfl, rfl, rfl, rfl, rfl, rfl, rfl, hOO⟩
    | some pr =>
        dsimp only
        by_cases hst : pr.status ≠ ProposalStatus.Open
        · rw [if_pos hst, if_pos hst]
          exact ⟨rfl, rfl, rfl, rfl, rfl, rfl, rfl, rfl, rfl, rfl, rfl, rfl, hOO⟩
        · rw [if_neg hst, if_neg hst]
          by_cases hv : (lookupA c pr.votes).isSome = true
          · rw [if_pos hv, if_pos hv]
            exact ⟨rfl, rfl, rfl, rfl, rfl, rfl, rfl, rfl, rfl, rfl, rfl, rfl, hOO⟩
          · rw [if_neg hv, if_neg hv]
            rw [hD (pr.property_id, c)]
            by_cases hsh : lookupD (pr.property_id, c) (pre ++ post) = 0
            · rw [if_pos hsh, if_pos hsh]
              exact ⟨rfl, rfl, rfl, rfl, rfl, rfl, rfl, rfl, rfl, rfl, rfl, rfl, hOO⟩
            · rw [if_neg hsh, if_neg hsh]
              exact ⟨rfl, rfl, rfl, rfl, rfl, rfl, rfl, rfl, rfl, rfl, rfl, rfl, hOO⟩
  case opExecute i =>
    dsimp only [applyOpFull, execute_proposal]
    cases hl : lookupA i s.proposals with
    | none =>
        exact ⟨rfl, rfl, rfl, rfl, rfl, rfl, rfl, rfl, rfl, rfl, rfl, rfl, hOO⟩
    | some pr =>
        dsimp only
        by_cases hst : pr.status ≠ ProposalStatus.Open
        · rw [if_pos hst, if_pos hst]
          exact ⟨rfl, rfl, rfl, rfl, rfl, rfl, rfl, rfl, rfl, rfl, rfl, rfl, hOO⟩
        · rw [if_neg hst, if_neg hst]
          by_cases hyn : pr.no_votes < pr.yes_votes
          · rw [if_pos hyn, if_pos hyn]
            exact ⟨rfl, rfl, rfl, rfl, rfl, rfl, rfl, rfl, rfl, rfl, rfl, rfl, hOO⟩
          · rw [if_neg hyn, if_neg hyn]
            exact ⟨rfl, rfl, rfl, rfl, rfl, rfl, rfl, rfl, rfl, rfl, rfl, rfl, hOO⟩
  case opGetProposals p =>
    exact ⟨rfl, rfl, rfl, rfl, rfl, rfl, rfl, rfl, rfl, rfl, rfl, rfl, hOO⟩
  case opOwnStatement u =>
    refine ⟨?_, rfl, rfl, rfl, rfl, rfl, rfl, rfl, rfl, rfl, rfl, rfl, hOO⟩
    dsimp only [applyOpFull, get_ownership_statement, propertyNameOf]
    rw [filter_insMid k₀ pre post _ (by simp)]
  case opIncomeStatement u =>
    exact ⟨rfl, rfl, rfl, rfl, rfl, rfl, rfl, rfl, rfl, rfl, rfl, rfl, hOO⟩

theorem zero_balance_equals_absent_witness :
    lookupA ((1, 3) : Nat × Nat) ([((1, 1), 60)] ++ [((1, 2), 40)]) = none ∧
    (applyOpFull (Op.opDeposit 1 50)
        { depState with ownership := [((1, 1), 60)] ++ [((1, 2), 40)] }).1 =
      (applyOpFull (Op.opDeposit 1 50)
        { depState with ownership := [((1, 1), 60)] ++ ((1, 3), 0) :: [((1, 2), 40)] }).1 ∧
    obsEq
      (applyOpFull (Op.opDeposit 1 50)
        { depState with ownership := [((1, 1), 60)] ++ [((1, 2), 40)] }).2
      (applyOpFull (Op.opDeposit 1 50)
        { depState with ownership := [((1, 1), 60)] ++ ((1, 3), 0) :: [((1, 2), 40)] }).2 := by
  have T := zero_balance_equals_absent (Op.opDeposit 1 50) depState (1, 3)
    [((1, 1), 60)] [((1, 2), 40)] rfl
  exact ⟨rfl, T.1, T.2⟩

end RWA
